import Mathlib

/-!
Verification of the Erupe replay tool: the pcap recording tap
(`cmd/replay` embedded `pcap` recording connection) and the positional
diff engine (`cmd/replay/compare.go`), against the natural-language
specification of the trace format and comparator.

Bytes are modelled as natural numbers below 256 inside lists; 16-bit
opcodes as natural numbers; Go `int` loop indices as `Nat`; the signed
`SizeDelta` as `Int`; Go `error` results as `Except String`.
-/

namespace Erupe

/-- Direction of a recorded packet. Wire encoding per the spec layout:
0 = client to server, 1 = server to client. The constants
`DirClientToServer` and `DirServerToClient` of the `pcap` package. -/
inductive Direction where
  | clientToServer
  | serverToClient
deriving DecidableEq, Repr

/-- One captured packet: `pcap.PacketRecord` with fields `TimestampNs`,
`Direction`, `Opcode`, `Payload`. -/
structure PacketRecord where
  timestampNs : Int
  direction : Direction
  opcode : Nat
  payload : List Nat
deriving DecidableEq, Repr

/-- The Go zero value `pcap.PacketRecord{}`: zero timestamp, direction
constant 0 (client to server), opcode 0, empty payload. -/
def PacketRecord.zero : PacketRecord :=
  { timestampNs := 0, direction := Direction.clientToServer, opcode := 0, payload := [] }

/-- `binary.BigEndian.Uint16` applied to two bytes: the first byte is the
high-order byte. The reductions modulo 256 record that the inputs are
bytes. -/
def bigEndianUint16 (b0 b1 : Nat) : Nat :=
  (b0 % 256) * 256 + (b1 % 256)

/-- The record literal built inside `RecordingConn.record`: the opcode is
`binary.BigEndian.Uint16(data[:2])` when the payload holds at least two
bytes and the zero value of `uint16` otherwise; the payload is stored
as received. `now` stands for `time.Now().UnixNano()`. -/
def mkPacketRecord (now : Int) (dir : Direction) (data : List Nat) : PacketRecord :=
  { timestampNs := now
    direction := dir
    opcode :=
      match data with
      | b0 :: b1 :: _ => bigEndianUint16 b0 b1
      | _ => 0
    payload := data }

/-- Modelled from the spec: the Trace Codec writer (`pcap.Writer`, whose
source is not under src). Per the spec, Append(record) serializes one
record and can fail with an I/O error when the sink rejects the write.
The sink is abstracted as the ordered list of appended records together
with a flag saying whether appends are rejected. -/
structure Writer where
  records : List PacketRecord
  failing : Bool
deriving DecidableEq, Repr

/-- Modelled from the spec: `pcap.Writer.WritePacket` (Append(record)).
A failing sink reports an error and keeps no record; otherwise the
record is appended at the end. -/
def Writer.WritePacket (w : Writer) (rec : PacketRecord) : Except String Writer :=
  if w.failing then Except.error "append failed"
  else Except.ok { w with records := w.records ++ [rec] }

/-- `RecordingConn.record`: builds the record (timestamp, direction,
derived opcode, raw payload) and appends it to the writer, discarding
any append error — the Go source reads `_ = rc.writer.WritePacket(rec)`
and the method has no error return. On a rejected append the writer
keeps its previous state. -/
def RecordingConn.record (w : Writer) (now : Int) (dir : Direction) (data : List Nat) : Writer :=
  match w.WritePacket (mkPacketRecord now dir data) with
  | Except.ok w2 => w2
  | Except.error _ => w

/-- `RecordingConn.ReadPacket`: delegates to the inner connection first
(`innerRead` is the result of `rc.inner.ReadPacket()`); an error is
returned unchanged and nothing is recorded; on success the bytes are
recorded client-to-server and returned unchanged. The pair carries the
call result and the writer state after the call. -/
def RecordingConn.ReadPacket (innerRead : Except String (List Nat)) (w : Writer) (now : Int) :
    Except String (List Nat) × Writer :=
  match innerRead with
  | Except.error e => (Except.error e, w)
  | Except.ok data => (Except.ok data, RecordingConn.record w now Direction.clientToServer data)

/-- `RecordingConn.SendPacket`: delegates to the inner connection first
(`innerSend` is the result of `rc.inner.SendPacket(data)`); an error is
returned unchanged and nothing is recorded; on success the bytes are
recorded server-to-client and nil is returned. -/
def RecordingConn.SendPacket (innerSend : Except String Unit) (w : Writer) (now : Int)
    (data : List Nat) : Except String Unit × Writer :=
  match innerSend with
  | Except.error e => (Except.error e, w)
  | Except.ok _ => (Except.ok (), RecordingConn.record w now Direction.serverToClient data)

/-- Modelled from the spec: `pcap.FilterByDirection` (source not under
src). It keeps exactly the records of the given direction, preserving
relative order. -/
def FilterByDirection (recs : List PacketRecord) (dir : Direction) : List PacketRecord :=
  recs.filter (fun r => r.direction == dir)

/-- `PacketDiff` from compare.go: `Index`, `Expected`, `Actual` (none
when no response was received), `OpcodeMismatch`, `SizeDelta`. -/
structure PacketDiff where
  index : Nat
  expected : PacketRecord
  actual : Option PacketRecord
  opcodeMismatch : Bool
  sizeDelta : Int
deriving DecidableEq, Repr

/-- One iteration of the first loop of `ComparePackets`, at index `i`
with expected record `exp` against the filtered actual records: the diff
appended for that index, or none when opcode and payload length agree.
Unset Go struct fields carry their zero values. -/
def diffAt (i : Nat) (exp : PacketRecord) (acts : List PacketRecord) : Option PacketDiff :=
  match acts.get? i with
  | none =>
      some { index := i, expected := exp, actual := none,
             opcodeMismatch := false, sizeDelta := 0 }
  | some act =>
      if exp.opcode ≠ act.opcode then
        some { index := i, expected := exp, actual := some act,
               opcodeMismatch := true, sizeDelta := 0 }
      else if exp.payload.length ≠ act.payload.length then
        some { index := i, expected := exp, actual := some act, opcodeMismatch := false,
               sizeDelta := (act.payload.length : Int) - (exp.payload.length : Int) }
      else none

/-- The first loop of `ComparePackets`: walk the filtered expected
records with running index `i`, consulting the filtered actual records
positionally, appending at most one diff per index. -/
def positionalDiffs (i : Nat) (exps acts : List PacketRecord) : List PacketDiff :=
  match exps with
  | [] => []
  | exp :: rest =>
      match diffAt i exp acts with
      | some d => d :: positionalDiffs (i + 1) rest acts
      | none => positionalDiffs (i + 1) rest acts

/-- The second loop of `ComparePackets`: every remaining actual record,
indexed from `i` on, becomes an unexpected-extra diff whose expected
side is the zero-value record. -/
def extrasFrom (i : Nat) (rest : List PacketRecord) : List PacketDiff :=
  match rest with
  | [] => []
  | act :: rest2 =>
      { index := i, expected := PacketRecord.zero, actual := some act,
        opcodeMismatch := false, sizeDelta := 0 } :: extrasFrom (i + 1) rest2

/-- `ComparePackets` from compare.go: filter both sequences to
server-to-client records, walk the expected ones positionally, then
report every actual record beyond the expected length as an extra. -/
def ComparePackets (expected actual : List PacketRecord) : List PacketDiff :=
  let expectedS2C := FilterByDirection expected Direction.serverToClient
  let actualS2C := FilterByDirection actual Direction.serverToClient
  positionalDiffs 0 expectedS2C actualS2C ++
    extrasFrom expectedS2C.length (actualS2C.drop expectedS2C.length)

/-- Per-direction packet and byte counters accumulated by the loop of
`runStats`: `totalC2S`, `bytesC2S`, `totalS2C`, `bytesS2C`. -/
structure DirTotals where
  totalC2S : Nat
  bytesC2S : Nat
  totalS2C : Nat
  bytesS2C : Nat
deriving DecidableEq, Repr

/-- The switch on `rec.Direction` inside the stats loop: bump the packet
count and byte total of the matching direction. -/
def tallyDirection (acc : DirTotals) (rec : PacketRecord) : DirTotals :=
  match rec.direction with
  | Direction.clientToServer =>
      { acc with totalC2S := acc.totalC2S + 1, bytesC2S := acc.bytesC2S + rec.payload.length }
  | Direction.serverToClient =>
      { acc with totalS2C := acc.totalS2C + 1, bytesS2C := acc.bytesS2C + rec.payload.length }

/-- What the stats mode reports: packet count, per-direction totals, and
the session duration, which is only computed when at least one record
exists. -/
structure StatsResult where
  packets : Nat
  totalC2S : Nat
  bytesC2S : Nat
  totalS2C : Nat
  bytesS2C : Nat
  durationNs : Option Int
deriving DecidableEq, Repr

/-- The core of `runStats` once the capture has been read into
`records`: an empty capture reports zero packets and returns nil before
any counter or the duration is touched; otherwise the loop tallies both
directions and the duration spans the first to the last record. The
per-opcode histogram and the printed rendering are not modelled;
`Except` mirrors the Go error return, nil on both paths after a
successful read. -/
def runStats (records : List PacketRecord) : Except String StatsResult :=
  if records.length = 0 then
    Except.ok { packets := 0, totalC2S := 0, bytesC2S := 0, totalS2C := 0, bytesS2C := 0,
                durationNs := none }
  else
    let t := records.foldl tallyDirection ⟨0, 0, 0, 0⟩
    Except.ok
      { packets := records.length
        totalC2S := t.totalC2S
        bytesC2S := t.bytesC2S
        totalS2C := t.totalS2C
        bytesS2C := t.bytesS2C
        durationNs := some ((records.getLastD PacketRecord.zero).timestampNs -
          (records.headD PacketRecord.zero).timestampNs) }

/-- Every record present after `RecordingConn.record` was either already
in the writer or is the freshly built record. -/
theorem record_mem (w : Writer) (now : Int) (dir : Direction) (data : List Nat) :
    ∀ r ∈ (RecordingConn.record w now dir data).records,
      r ∈ w.records ∨ r = mkPacketRecord now dir data := by
  intro r hr
  unfold RecordingConn.record Writer.WritePacket at hr
  by_cases hf : w.failing
  · simp [hf] at hr
    exact Or.inl hr
  · simp [hf, List.mem_append] at hr
    rcases hr with h | h
    · exact Or.inl h
    · exact Or.inr h

/-- The opcode stored by `mkPacketRecord` is the big-endian 16-bit value
of the first two payload bytes when the payload holds at least two
bytes, and 0 otherwise. -/
theorem mkPacketRecord_opcode (now : Int) (dir : Direction) (data : List Nat) :
    (2 ≤ data.length → (mkPacketRecord now dir data).opcode =
        bigEndianUint16 (data.headD 0) (data.tail.headD 0)) ∧
    (data.length < 2 → (mkPacketRecord now dir data).opcode = 0) := by
  constructor
  · intro h
    match data with
    | [] => simp at h
    | [b0] => simp at h
    | b0 :: b1 :: rest => simp [mkPacketRecord]
  · intro h
    match data with
    | [] => simp [mkPacketRecord]
    | [b0] => simp [mkPacketRecord]
    | b0 :: b1 :: rest => simp at h; omega

/-- C1. Every record the recording tap appends — in either direction —
carries an opcode equal to the big-endian 16-bit integer formed from the
first two payload bytes when the payload has at least two bytes, and 0
when it is shorter. -/
theorem c1_recorded_opcode (w : Writer) (now : Int) (dir : Direction) (data : List Nat) :
    ∀ r ∈ (RecordingConn.record w now dir data).records,
      r ∈ w.records ∨
        ((2 ≤ data.length →
            r.opcode = bigEndianUint16 (data.headD 0) (data.tail.headD 0)) ∧
         (data.length < 2 → r.opcode = 0)) := by
  intro r hr
  rcases record_mem w now dir data r hr with h | h
  · exact Or.inl h
  · right
    rw [h]
    exact mkPacketRecord_opcode now dir data

/-- Witness for C1 at a concrete input: recording the three-byte payload
18, 52, 255 in the server-to-client direction into an empty healthy
writer yields a record whose opcode is 18 * 256 + 52 = 4660. -/
theorem c1_witness :
    (mkPacketRecord 7 Direction.serverToClient [18, 52, 255]) ∈
        (RecordingConn.record ⟨[], false⟩ 7 Direction.serverToClient [18, 52, 255]).records ∧
    ((mkPacketRecord 7 Direction.serverToClient [18, 52, 255]) ∈ ([] : List PacketRecord) ∨
      ((2 ≤ ([18, 52, 255] : List Nat).length →
          (mkPacketRecord 7 Direction.serverToClient [18, 52, 255]).opcode =
            bigEndianUint16 (([18, 52, 255] : List Nat).headD 0)
              (([18, 52, 255] : List Nat).tail.headD 0)) ∧
       (([18, 52, 255] : List Nat).length < 2 →
          (mkPacketRecord 7 Direction.serverToClient [18, 52, 255]).opcode = 0))) := by
  refine ⟨by decide, ?_⟩
  exact c1_recorded_opcode ⟨[], false⟩ 7 Direction.serverToClient [18, 52, 255]
    (mkPacketRecord 7 Direction.serverToClient [18, 52, 255]) (by decide)

/-- C2 counterexample. The claim says send-one appends the record to the
codec and then delegates transmission, so the record would be present
even when the inner send fails. In the source the inner send runs first
and a failed send records nothing: with a healthy empty writer and an
inner connection refusing the send, the codec stays empty and does not
hold the tagged record. -/
theorem c2_counterexample :
    (RecordingConn.SendPacket (Except.error "connection reset") ⟨[], false⟩ 5 [0, 18]).2.records ≠
        [mkPacketRecord 5 Direction.serverToClient [0, 18]] ∧
    (RecordingConn.SendPacket (Except.error "connection reset") ⟨[], false⟩ 5 [0, 18]).2.records =
        [] ∧
    (RecordingConn.SendPacket (Except.error "connection reset") ⟨[], false⟩ 5 [0, 18]).1 =
        Except.error "connection reset" :=
  ⟨by decide, rfl, rfl⟩

/-- C2 (amended). Send-one delegates to the inner connection first: an
inner send failure propagates to the caller untouched and nothing is
recorded; on success the call reports success even when the codec append
fails (capture faults are swallowed), and with a healthy codec the
packet is tagged server-to-client and appended. -/
theorem c2_send_capture (innerSend : Except String Unit) (w : Writer) (now : Int)
    (data : List Nat) :
    (∀ e, innerSend = Except.error e →
        RecordingConn.SendPacket innerSend w now data = (Except.error e, w)) ∧
    (innerSend = Except.ok () →
        (RecordingConn.SendPacket innerSend w now data).1 = Except.ok () ∧
        (w.failing = false →
          (RecordingConn.SendPacket innerSend w now data).2.records =
            w.records ++ [mkPacketRecord now Direction.serverToClient data])) := by
  constructor
  · intro e he
    simp [he, RecordingConn.SendPacket]
  · intro hok
    subst hok
    refine ⟨rfl, ?_⟩
    intro hf
    simp [RecordingConn.SendPacket, RecordingConn.record, Writer.WritePacket, hf]

/-- Witness for C2 at concrete inputs: a refused send against a failing
writer propagates the error with nothing recorded, and a successful send
into a healthy empty writer still reports success and appends the tagged
record. -/
theorem c2_witness :
    RecordingConn.SendPacket (Except.error "connection reset") ⟨[], true⟩ 3 [0, 18] =
        (Except.error "connection reset", ⟨[], true⟩) ∧
    (RecordingConn.SendPacket (Except.ok ()) ⟨[], false⟩ 3 [0, 18]).1 = Except.ok () ∧
    (RecordingConn.SendPacket (Except.ok ()) ⟨[], false⟩ 3 [0, 18]).2.records =
        [mkPacketRecord 3 Direction.serverToClient [0, 18]] :=
  ⟨(c2_send_capture (Except.error "connection reset") ⟨[], true⟩ 3 [0, 18]).1
      "connection reset" rfl,
   ((c2_send_capture (Except.ok ()) ⟨[], false⟩ 3 [0, 18]).2 rfl).1,
   ((c2_send_capture (Except.ok ()) ⟨[], false⟩ 3 [0, 18]).2 rfl).2 rfl⟩

/-- C3. Receive-one delegates to the inner connection first: an inner
read error propagates untouched with nothing recorded; on success the
original bytes are returned unchanged and, with a healthy codec, the
packet is tagged client-to-server and appended. -/
theorem c3_read_capture (innerRead : Except String (List Nat)) (w : Writer) (now : Int) :
    (∀ e, innerRead = Except.error e →
        RecordingConn.ReadPacket innerRead w now = (Except.error e, w)) ∧
    (∀ data, innerRead = Except.ok data →
        (RecordingConn.ReadPacket innerRead w now).1 = Except.ok data ∧
        (w.failing = false →
          (RecordingConn.ReadPacket innerRead w now).2.records =
            w.records ++ [mkPacketRecord now Direction.clientToServer data])) := by
  constructor
  · intro e he
    simp [he, RecordingConn.ReadPacket]
  · intro data hok
    subst hok
    refine ⟨rfl, ?_⟩
    intro hf
    simp [RecordingConn.ReadPacket, RecordingConn.record, Writer.WritePacket, hf]

/-- Witness for C3 at concrete inputs: a failed inner read propagates
with the writer untouched, and a successful read of two bytes returns
them unchanged and appends the client-to-server record. -/
theorem c3_witness :
    RecordingConn.ReadPacket (Except.error "eof") ⟨[], false⟩ 9 =
        (Except.error "eof", ⟨[], false⟩) ∧
    (RecordingConn.ReadPacket (Except.ok [0, 19]) ⟨[], false⟩ 9).1 = Except.ok [0, 19] ∧
    (RecordingConn.ReadPacket (Except.ok [0, 19]) ⟨[], false⟩ 9).2.records =
        [mkPacketRecord 9 Direction.clientToServer [0, 19]] :=
  ⟨(c3_read_capture (Except.error "eof") ⟨[], false⟩ 9).1 "eof" rfl,
   ((c3_read_capture (Except.ok [0, 19]) ⟨[], false⟩ 9).2 [0, 19] rfl).1,
   ((c3_read_capture (Except.ok [0, 19]) ⟨[], false⟩ 9).2 [0, 19] rfl).2 rfl⟩

/-- A diff produced at index `i` carries index `i`. -/
theorem diffAt_index (i : Nat) (exp : PacketRecord) (acts : List PacketRecord) (d : PacketDiff)
    (h : diffAt i exp acts = some d) : d.index = i := by
  unfold diffAt at h
  split at h
  · injection h with h2
    subst h2
    rfl
  · split at h
    · injection h with h2
      subst h2
      rfl
    · split at h
      · injection h with h2
        subst h2
        rfl
      · exact absurd h (by simp)

/-- Every diff of the positional loop started at index `i` carries an
index at least `i`. -/
theorem positionalDiffs_index_lb :
    ∀ (exps : List PacketRecord) (i : Nat) (acts : List PacketRecord) (d : PacketDiff),
      d ∈ positionalDiffs i exps acts → i ≤ d.index := by
  intro exps
  induction exps with
  | nil => intro i acts d h; simp [positionalDiffs] at h
  | cons exp rest ih =>
    intro i acts d h
    unfold positionalDiffs at h
    cases hd : diffAt i exp acts with
    | some d0 =>
      rw [hd] at h
      rcases List.mem_cons.mp h with h1 | h1
      · rw [h1, diffAt_index i exp acts d0 hd]
      · have := ih (i + 1) acts d h1
        omega
    | none =>
      rw [hd] at h
      have := ih (i + 1) acts d h
      omega

/-- Every diff of the positional loop started at index `i` over `exps`
carries an index below `i + exps.length`. -/
theorem positionalDiffs_index_ub :
    ∀ (exps : List PacketRecord) (i : Nat) (acts : List PacketRecord) (d : PacketDiff),
      d ∈ positionalDiffs i exps acts → d.index < i + exps.length := by
  intro exps
  induction exps with
  | nil => intro i acts d h; simp [positionalDiffs] at h
  | cons exp rest ih =>
    intro i acts d h
    unfold positionalDiffs at h
    simp only [List.length_cons]
    cases hd : diffAt i exp acts with
    | some d0 =>
      rw [hd] at h
      rcases List.mem_cons.mp h with h1 | h1
      · rw [h1, diffAt_index i exp acts d0 hd]
        omega
      · have := ih (i + 1) acts d h1
        omega
    | none =>
      rw [hd] at h
      have := ih (i + 1) acts d h
      omega

/-- No positional diff carries an index below the loop start. -/
theorem positionalDiffs_filter_below (exps : List PacketRecord) (k : Nat)
    (acts : List PacketRecord) (i : Nat) (h : i < k) :
    (positionalDiffs k exps acts).filter (fun d => d.index == i) = [] := by
  rw [List.filter_eq_nil_iff]
  intro d hd
  have := positionalDiffs_index_lb exps k acts d hd
  simp only [beq_iff_eq]
  omega

/-- No positional diff carries an index at or beyond the loop start plus
the expected length. -/
theorem positionalDiffs_filter_above (exps : List PacketRecord) (k : Nat)
    (acts : List PacketRecord) (i : Nat) (h : k + exps.length ≤ i) :
    (positionalDiffs k exps acts).filter (fun d => d.index == i) = [] := by
  rw [List.filter_eq_nil_iff]
  intro d hd
  have := positionalDiffs_index_ub exps k acts d hd
  simp only [beq_iff_eq]
  omega

/-- The positional loop emits, at any in-range index, exactly the diff
that `diffAt` produces for the expected record there. -/
theorem positionalDiffs_filter :
    ∀ (exps : List PacketRecord) (k : Nat) (acts : List PacketRecord) (i : Nat)
      (exp : PacketRecord), k ≤ i → exps.get? (i - k) = some exp →
      (positionalDiffs k exps acts).filter (fun d => d.index == i) =
        (diffAt i exp acts).toList := by
  intro exps
  induction exps with
  | nil => intro k acts i exp hk hget; simp at hget
  | cons e0 rest ih =>
    intro k acts i exp hk hget
    by_cases hik : i = k
    · subst hik
      rw [Nat.sub_self] at hget
      simp only [List.get?] at hget
      injection hget with hget
      subst hget
      unfold positionalDiffs
      cases hd : diffAt i e0 acts with
      | some d0 =>
        rw [List.filter_cons_of_pos]
        · rw [positionalDiffs_filter_below rest (i + 1) acts i (by omega)]
          simp
        · simp [diffAt_index i e0 acts d0 hd]
      | none =>
        rw [positionalDiffs_filter_below rest (i + 1) acts i (by omega)]
        simp
    · have hki : k < i := lt_of_le_of_ne hk (fun h => hik h.symm)
      have hsub : i - k = (i - (k + 1)) + 1 := by omega
      rw [hsub] at hget
      simp only [List.get?] at hget
      unfold positionalDiffs
      cases hd : diffAt k e0 acts with
      | some d0 =>
        rw [List.filter_cons_of_neg]
        · exact ih (k + 1) acts i exp (by omega) hget
        · simp [diffAt_index k e0 acts d0 hd]
          omega
      | none => exact ih (k + 1) acts i exp (by omega) hget

/-- Every unexpected-extra diff started at index `i` carries an index at
least `i`. -/
theorem extrasFrom_index_lb :
    ∀ (rest : List PacketRecord) (i : Nat) (d : PacketDiff),
      d ∈ extrasFrom i rest → i ≤ d.index := by
  intro rest
  induction rest with
  | nil => intro i d h; simp [extrasFrom] at h
  | cons act rest2 ih =>
    intro i d h
    unfold extrasFrom at h
    rcases List.mem_cons.mp h with h1 | h1
    · rw [h1]
    · have := ih (i + 1) d h1
      omega

/-- No unexpected-extra diff carries an index below the loop start. -/
theorem extrasFrom_filter_below (rest : List PacketRecord) (k : Nat) (i : Nat) (h : i < k) :
    (extrasFrom k rest).filter (fun d => d.index == i) = [] := by
  rw [List.filter_eq_nil_iff]
  intro d hd
  have := extrasFrom_index_lb rest k d hd
  simp only [beq_iff_eq]
  omega

/-- The extras loop emits, at any in-range index, exactly one
unexpected-extra diff carrying the actual record found there. -/
theorem extrasFrom_filter :
    ∀ (rest : List PacketRecord) (k : Nat) (i : Nat) (act : PacketRecord), k ≤ i →
      rest.get? (i - k) = some act →
      (extrasFrom k rest).filter (fun d => d.index == i) =
        [{ index := i, expected := PacketRecord.zero, actual := some act,
           opcodeMismatch := false, sizeDelta := 0 }] := by
  intro rest
  induction rest with
  | nil => intro k i act hk hget; simp at hget
  | cons a0 rest2 ih =>
    intro k i act hk hget
    by_cases hik : i = k
    · subst hik
      rw [Nat.sub_self] at hget
      simp only [List.get?] at hget
      injection hget with hget
      subst hget
      unfold extrasFrom
      rw [List.filter_cons_of_pos (by simp)]
      rw [extrasFrom_filter_below rest2 (i + 1) i (by omega)]
    · have hsub : i - k = (i - (k + 1)) + 1 := by omega
      rw [hsub] at hget
      simp only [List.get?] at hget
      unfold extrasFrom
      rw [List.filter_cons_of_neg]
      · exact ih (k + 1) i act (by omega) hget
      · simp
        omega

/-- The positional loop emits diffs in strictly ascending index order. -/
theorem positionalDiffs_pairwise :
    ∀ (exps : List PacketRecord) (i : Nat) (acts : List PacketRecord),
      (positionalDiffs i exps acts).Pairwise (fun a b => a.index < b.index) := by
  intro exps
  induction exps with
  | nil => intro i acts; simp [positionalDiffs]
  | cons exp rest ih =>
    intro i acts
    unfold positionalDiffs
    cases hd : diffAt i exp acts with
    | some d0 =>
      refine List.Pairwise.cons ?_ (ih (i + 1) acts)
      intro b hb
      have hlb := positionalDiffs_index_lb rest (i + 1) acts b hb
      rw [diffAt_index i exp acts d0 hd]
      omega
    | none => exact ih (i + 1) acts

/-- The extras loop emits diffs in strictly ascending index order. -/
theorem extrasFrom_pairwise :
    ∀ (rest : List PacketRecord) (i : Nat),
      (extrasFrom i rest).Pairwise (fun a b => a.index < b.index) := by
  intro rest
  induction rest with
  | nil => intro i; simp [extrasFrom]
  | cons act rest2 ih =>
    intro i
    unfold extrasFrom
    refine List.Pairwise.cons ?_ (ih (i + 1))
    intro b hb
    have hlb := extrasFrom_index_lb rest2 (i + 1) b hb
    simp only
    omega

/-- An index addressed by some entry of a list is inside the list. -/
theorem get?_some_lt {α : Type} (l : List α) (i : Nat) (a : α) (h : l.get? i = some a) :
    i < l.length := by
  by_contra hge
  rw [List.get?_eq_none.mpr (by omega)] at h
  exact absurd h (by simp)

/-- With no actual record at the index, the loop body emits a
missing-response diff carrying the expected record only. -/
theorem diffAt_missing (i : Nat) (exp : PacketRecord) (acts : List PacketRecord)
    (hA : acts.get? i = none) :
    diffAt i exp acts =
      some { index := i, expected := exp, actual := none,
             opcodeMismatch := false, sizeDelta := 0 } := by
  unfold diffAt
  rw [hA]

/-- With differing opcodes at the index, the loop body emits an
opcode-mismatch diff carrying both records. -/
theorem diffAt_mismatch (i : Nat) (exp act : PacketRecord) (acts : List PacketRecord)
    (hA : acts.get? i = some act) (hop : exp.opcode ≠ act.opcode) :
    diffAt i exp acts =
      some { index := i, expected := exp, actual := some act,
             opcodeMismatch := true, sizeDelta := 0 } := by
  unfold diffAt
  rw [hA]
  simp [hop]

/-- With equal opcodes but differing payload lengths, the loop body
emits a size-delta diff carrying the signed length difference. -/
theorem diffAt_size (i : Nat) (exp act : PacketRecord) (acts : List PacketRecord)
    (hA : acts.get? i = some act) (hop : exp.opcode = act.opcode)
    (hlen : exp.payload.length ≠ act.payload.length) :
    diffAt i exp acts =
      some { index := i, expected := exp, actual := some act,
             opcodeMismatch := false,
             sizeDelta := (act.payload.length : Int) - (exp.payload.length : Int) } := by
  unfold diffAt
  rw [hA]
  simp [hop, hlen]

/-- With equal opcodes and equal payload lengths, the loop body emits no
diff. -/
theorem diffAt_none (i : Nat) (exp act : PacketRecord) (acts : List PacketRecord)
    (hA : acts.get? i = some act) (hop : exp.opcode = act.opcode)
    (hlen : exp.payload.length = act.payload.length) :
    diffAt i exp acts = none := by
  unfold diffAt
  rw [hA]
  simp [hop, hlen]

/-- Filtering the output of `ComparePackets` by index splits into the
positional part and the extras part. -/
theorem ComparePackets_filter (expected actual : List PacketRecord) (i : Nat) :
    (ComparePackets expected actual).filter (fun d => d.index == i) =
      (positionalDiffs 0 (FilterByDirection expected Direction.serverToClient)
          (FilterByDirection actual Direction.serverToClient)).filter
        (fun d => d.index == i) ++
      (extrasFrom (FilterByDirection expected Direction.serverToClient).length
          ((FilterByDirection actual Direction.serverToClient).drop
            (FilterByDirection expected Direction.serverToClient).length)).filter
        (fun d => d.index == i) := by
  show (positionalDiffs 0 (FilterByDirection expected Direction.serverToClient)
      (FilterByDirection actual Direction.serverToClient) ++
    extrasFrom (FilterByDirection expected Direction.serverToClient).length
      ((FilterByDirection actual Direction.serverToClient).drop
        (FilterByDirection expected Direction.serverToClient).length)).filter
      (fun d => d.index == i) = _
  rw [List.filter_append]

/-- Walking a list positionally against itself emits no diff: every
index resolves to the same record, which agrees with itself on opcode
and payload length. -/
theorem positionalDiffs_self :
    ∀ (rest : List PacketRecord) (k : Nat) (L : List PacketRecord),
      (∀ j : Nat, L.get? (k + j) = rest.get? j) → positionalDiffs k rest L = [] := by
  intro rest
  induction rest with
  | nil => intro k L h; rfl
  | cons e0 rest2 ih =>
    intro k L h
    have h0 : L.get? k = some e0 := by
      have := h 0
      simpa using this
    have hd : diffAt k e0 L = none :=
      diffAt_none k e0 e0 L h0 rfl rfl
    unfold positionalDiffs
    rw [hd]
    apply ih (k + 1) L
    intro j
    have hj := h (j + 1)
    have harith : k + (j + 1) = k + 1 + j := by omega
    rw [harith] at hj
    simpa using hj

/-- C10. Comparing any trace against itself reports no drift: the diff
list is empty whatever mix of directions, opcodes and payload lengths
the trace holds. -/
theorem c10_compare_self (s : List PacketRecord) : ComparePackets s s = [] := by
  show positionalDiffs 0 (FilterByDirection s Direction.serverToClient)
      (FilterByDirection s Direction.serverToClient) ++
    extrasFrom (FilterByDirection s Direction.serverToClient).length
      ((FilterByDirection s Direction.serverToClient).drop
        (FilterByDirection s Direction.serverToClient).length) = []
  rw [List.drop_length]
  rw [positionalDiffs_self (FilterByDirection s Direction.serverToClient) 0
    (FilterByDirection s Direction.serverToClient) (fun j => by rw [Nat.zero_add])]
  rfl

/-- C4. When the filtered sequences carry records with equal opcodes but
differing payload lengths at an index, exactly one diff is emitted at
that index and its size delta is the actual length minus the expected
length; in particular opcode 18 with a three-byte against a four-byte
payload yields exactly one diff of size delta one. -/
theorem c4_size_delta :
    (∀ (expected actual : List PacketRecord) (i : Nat) (exp act : PacketRecord),
      (FilterByDirection expected Direction.serverToClient).get? i = some exp →
      (FilterByDirection actual Direction.serverToClient).get? i = some act →
      exp.opcode = act.opcode →
      exp.payload.length ≠ act.payload.length →
      (ComparePackets expected actual).filter (fun d => d.index == i) =
        [{ index := i, expected := exp, actual := some act, opcodeMismatch := false,
           sizeDelta := (act.payload.length : Int) - (exp.payload.length : Int) }]) ∧
    ComparePackets
        [{ timestampNs := 0, direction := Direction.serverToClient, opcode := 18,
           payload := [0, 18, 170] }]
        [{ timestampNs := 0, direction := Direction.serverToClient, opcode := 18,
           payload := [0, 18, 170, 171] }] =
      [{ index := 0,
         expected := { timestampNs := 0, direction := Direction.serverToClient, opcode := 18,
                       payload := [0, 18, 170] },
         actual := some { timestampNs := 0, direction := Direction.serverToClient, opcode := 18,
                          payload := [0, 18, 170, 171] },
         opcodeMismatch := false, sizeDelta := 1 }] := by
  constructor
  · intro expected actual i exp act hE hA hop hlen
    rw [ComparePackets_filter]
    rw [positionalDiffs_filter _ 0 _ i exp (Nat.zero_le i) (by simpa using hE)]
    rw [extrasFrom_filter_below _ _ i (get?_some_lt _ i exp hE)]
    rw [diffAt_size i exp act _ hA hop hlen]
    rfl
  · decide

/-- Witness for C4: a client-to-server stimulus record ahead of the
expected response does not shift the index, and lengths three against
five on the same opcode give one diff of size delta two. -/
theorem c4_witness :
    (ComparePackets
        [{ timestampNs := 0, direction := Direction.clientToServer, opcode := 19,
           payload := [0, 19] },
         { timestampNs := 0, direction := Direction.serverToClient, opcode := 18,
           payload := [0, 18, 1] }]
        [{ timestampNs := 0, direction := Direction.serverToClient, opcode := 18,
           payload := [0, 18, 1, 2, 3] }]).filter (fun d => d.index == 0) =
      [{ index := 0,
         expected := { timestampNs := 0, direction := Direction.serverToClient, opcode := 18,
                       payload := [0, 18, 1] },
         actual := some { timestampNs := 0, direction := Direction.serverToClient, opcode := 18,
                          payload := [0, 18, 1, 2, 3] },
         opcodeMismatch := false, sizeDelta := 2 }] := by
  have h := c4_size_delta.1
      [{ timestampNs := 0, direction := Direction.clientToServer, opcode := 19,
         payload := [0, 19] },
       { timestampNs := 0, direction := Direction.serverToClient, opcode := 18,
         payload := [0, 18, 1] }]
      [{ timestampNs := 0, direction := Direction.serverToClient, opcode := 18,
         payload := [0, 18, 1, 2, 3] }]
      0
      { timestampNs := 0, direction := Direction.serverToClient, opcode := 18,
        payload := [0, 18, 1] }
      { timestampNs := 0, direction := Direction.serverToClient, opcode := 18,
        payload := [0, 18, 1, 2, 3] }
      (by decide) (by decide) (by decide) (by decide)
  rw [h]
  decide

/-- C5. Differing opcodes at a filtered index yield an opcode-mismatch
diff carrying both records; a missing actual record at an expected index
yields a missing-response diff carrying the expected record with a nil
actual side; the literal scenario of the spec yields exactly an index-0
mismatch followed by an index-1 missing response. -/
theorem c5_mismatch_missing :
    (∀ (expected actual : List PacketRecord) (i : Nat) (exp act : PacketRecord),
      (FilterByDirection expected Direction.serverToClient).get? i = some exp →
      (FilterByDirection actual Direction.serverToClient).get? i = some act →
      exp.opcode ≠ act.opcode →
      (ComparePackets expected actual).filter (fun d => d.index == i) =
        [{ index := i, expected := exp, actual := some act,
           opcodeMismatch := true, sizeDelta := 0 }]) ∧
    (∀ (expected actual : List PacketRecord) (i : Nat) (exp : PacketRecord),
      (FilterByDirection expected Direction.serverToClient).get? i = some exp →
      (FilterByDirection actual Direction.serverToClient).get? i = none →
      (ComparePackets expected actual).filter (fun d => d.index == i) =
        [{ index := i, expected := exp, actual := none,
           opcodeMismatch := false, sizeDelta := 0 }]) ∧
    ComparePackets
        [{ timestampNs := 0, direction := Direction.serverToClient, opcode := 18,
           payload := [0, 18] },
         { timestampNs := 0, direction := Direction.serverToClient, opcode := 97,
           payload := [0, 97] }]
        [{ timestampNs := 0, direction := Direction.serverToClient, opcode := 153,
           payload := [0, 153] }] =
      [{ index := 0,
         expected := { timestampNs := 0, direction := Direction.serverToClient, opcode := 18,
                       payload := [0, 18] },
         actual := some { timestampNs := 0, direction := Direction.serverToClient, opcode := 153,
                          payload := [0, 153] },
         opcodeMismatch := true, sizeDelta := 0 },
       { index := 1,
         expected := { timestampNs := 0, direction := Direction.serverToClient, opcode := 97,
                       payload := [0, 97] },
         actual := none, opcodeMismatch := false, sizeDelta := 0 }] := by
  refine ⟨?_, ?_, by decide⟩
  · intro expected actual i exp act hE hA hop
    rw [ComparePackets_filter]
    rw [positionalDiffs_filter _ 0 _ i exp (Nat.zero_le i) (by simpa using hE)]
    rw [extrasFrom_filter_below _ _ i (get?_some_lt _ i exp hE)]
    rw [diffAt_mismatch i exp act _ hA hop]
    rfl
  · intro expected actual i exp hE hA
    rw [ComparePackets_filter]
    rw [positionalDiffs_filter _ 0 _ i exp (Nat.zero_le i) (by simpa using hE)]
    rw [extrasFrom_filter_below _ _ i (get?_some_lt _ i exp hE)]
    rw [diffAt_missing i exp _ hA]
    rfl

/-- Witness for C5: opcodes 18 against 153 at index 0 give one mismatch
diff there, and a missing second response gives one missing-response
diff at index 1. -/
theorem c5_witness :
    (ComparePackets
        [{ timestampNs := 0, direction := Direction.serverToClient, opcode := 18,
           payload := [0, 18] }]
        [{ timestampNs := 0, direction := Direction.serverToClient, opcode := 153,
           payload := [0, 153] }]).filter (fun d => d.index == 0) =
      [{ index := 0,
         expected := { timestampNs := 0, direction := Direction.serverToClient, opcode := 18,
                       payload := [0, 18] },
         actual := some { timestampNs := 0, direction := Direction.serverToClient, opcode := 153,
                          payload := [0, 153] },
         opcodeMismatch := true, sizeDelta := 0 }] ∧
    (ComparePackets
        [{ timestampNs := 0, direction := Direction.serverToClient, opcode := 18,
           payload := [0, 18] },
         { timestampNs := 0, direction := Direction.serverToClient, opcode := 97,
           payload := [0, 97] }]
        [{ timestampNs := 0, direction := Direction.serverToClient, opcode := 18,
           payload := [0, 18] }]).filter (fun d => d.index == 1) =
      [{ index := 1,
         expected := { timestampNs := 0, direction := Direction.serverToClient, opcode := 97,
                       payload := [0, 97] },
         actual := none, opcodeMismatch := false, sizeDelta := 0 }] :=
  ⟨c5_mismatch_missing.1
      [{ timestampNs := 0, direction := Direction.serverToClient, opcode := 18,
         payload := [0, 18] }]
      [{ timestampNs := 0, direction := Direction.serverToClient, opcode := 153,
         payload := [0, 153] }]
      0
      { timestampNs := 0, direction := Direction.serverToClient, opcode := 18,
        payload := [0, 18] }
      { timestampNs := 0, direction := Direction.serverToClient, opcode := 153,
        payload := [0, 153] }
      (by decide) (by decide) (by decide),
   c5_mismatch_missing.2.1
      [{ timestampNs := 0, direction := Direction.serverToClient, opcode := 18,
         payload := [0, 18] },
       { timestampNs := 0, direction := Direction.serverToClient, opcode := 97,
         payload := [0, 97] }]
      [{ timestampNs := 0, direction := Direction.serverToClient, opcode := 18,
         payload := [0, 18] }]
      1
      { timestampNs := 0, direction := Direction.serverToClient, opcode := 97,
        payload := [0, 97] }
      (by decide) (by decide)⟩

/-- C6. Every filtered actual record at an index at or beyond the
filtered expected length is reported as exactly one unexpected-extra
diff with a zero-value expected side, and the whole output is in
strictly ascending index order, so trailing extras follow all positional
diffs. -/
theorem c6_extras_ordered :
    (∀ (expected actual : List PacketRecord) (i : Nat) (act : PacketRecord),
      (FilterByDirection expected Direction.serverToClient).length ≤ i →
      (FilterByDirection actual Direction.serverToClient).get? i = some act →
      (ComparePackets expected actual).filter (fun d => d.index == i) =
        [{ index := i, expected := PacketRecord.zero, actual := some act,
           opcodeMismatch := false, sizeDelta := 0 }]) ∧
    (∀ (expected actual : List PacketRecord),
      (ComparePackets expected actual).Pairwise (fun a b => a.index < b.index)) ∧
    ComparePackets []
        [{ timestampNs := 0, direction := Direction.serverToClient, opcode := 18,
           payload := [0, 18] }] =
      [{ index := 0, expected := PacketRecord.zero,
         actual := some { timestampNs := 0, direction := Direction.serverToClient, opcode := 18,
                          payload := [0, 18] },
         opcodeMismatch := false, sizeDelta := 0 }] := by
  refine ⟨?_, ?_, by decide⟩
  · intro expected actual i act hlen hA
    rw [ComparePackets_filter]
    rw [positionalDiffs_filter_above _ 0 _ i (by simpa using hlen)]
    rw [extrasFrom_filter _ (FilterByDirection expected Direction.serverToClient).length i act
      hlen ?_]
    · rfl
    · rw [List.get?_drop]
      have harith : (FilterByDirection expected Direction.serverToClient).length +
          (i - (FilterByDirection expected Direction.serverToClient).length) = i := by omega
      rw [harith]
      exact hA
  · intro expected actual
    show (positionalDiffs 0 (FilterByDirection expected Direction.serverToClient)
        (FilterByDirection actual Direction.serverToClient) ++
      extrasFrom (FilterByDirection expected Direction.serverToClient).length
        ((FilterByDirection actual Direction.serverToClient).drop
          (FilterByDirection expected Direction.serverToClient).length)).Pairwise
      (fun a b => a.index < b.index)
    rw [List.pairwise_append]
    refine ⟨positionalDiffs_pairwise _ 0 _, extrasFrom_pairwise _ _, ?_⟩
    intro a ha b hb
    have hua := positionalDiffs_index_ub _ 0 _ a ha
    have hlb := extrasFrom_index_lb _ _ b hb
    omega

/-- Witness for C6: against an empty expected trace, a lone actual
response becomes exactly one unexpected-extra diff at index 0 with the
zero-value expected side. -/
theorem c6_witness :
    (ComparePackets []
        [{ timestampNs := 0, direction := Direction.serverToClient, opcode := 18,
           payload := [0, 18] }]).filter (fun d => d.index == 0) =
      [{ index := 0, expected := PacketRecord.zero,
         actual := some { timestampNs := 0, direction := Direction.serverToClient, opcode := 18,
                          payload := [0, 18] },
         opcodeMismatch := false, sizeDelta := 0 }] :=
  c6_extras_ordered.1 []
      [{ timestampNs := 0, direction := Direction.serverToClient, opcode := 18,
         payload := [0, 18] }]
      0
      { timestampNs := 0, direction := Direction.serverToClient, opcode := 18,
        payload := [0, 18] }
      (by decide) (by decide)

/-- C7. The comparison only sees server-to-client records: the filter
keeps a subsequence (preserving relative order), and inserting a
client-to-server record anywhere in either input leaves the diff list
unchanged — stimulus records contribute no diff and shift no index. -/
theorem c7_stimulus_filtered :
    (∀ (l : List PacketRecord),
      (FilterByDirection l Direction.serverToClient).Sublist l) ∧
    (∀ (pre post actual : List PacketRecord) (r : PacketRecord),
      r.direction = Direction.clientToServer →
      ComparePackets (pre ++ r :: post) actual = ComparePackets (pre ++ post) actual) ∧
    (∀ (expected pre post : List PacketRecord) (r : PacketRecord),
      r.direction = Direction.clientToServer →
      ComparePackets expected (pre ++ r :: post) = ComparePackets expected (pre ++ post)) := by
  have hskip : ∀ (pre post : List PacketRecord) (r : PacketRecord),
      r.direction = Direction.clientToServer →
      FilterByDirection (pre ++ r :: post) Direction.serverToClient =
        FilterByDirection (pre ++ post) Direction.serverToClient := by
    intro pre post r h
    unfold FilterByDirection
    rw [List.filter_append, List.filter_append, List.filter_cons_of_neg]
    simp [h]
  refine ⟨fun l => List.filter_sublist l, ?_, ?_⟩
  · intro pre post actual r h
    unfold ComparePackets
    rw [hskip pre post r h]
  · intro expected pre post r h
    unfold ComparePackets
    rw [hskip pre post r h]

/-- Witness for C7: inserting a client-to-server stimulus record in
front of either trace leaves the comparison output unchanged. -/
theorem c7_witness :
    ComparePackets
        ([] ++ { timestampNs := 0, direction := Direction.clientToServer, opcode := 19,
                 payload := [0, 19] } ::
          [{ timestampNs := 0, direction := Direction.serverToClient, opcode := 18,
             payload := [0, 18] }])
        [{ timestampNs := 0, direction := Direction.serverToClient, opcode := 18,
           payload := [0, 18] }] =
      ComparePackets
        ([] ++ [{ timestampNs := 0, direction := Direction.serverToClient, opcode := 18,
                  payload := [0, 18] }])
        [{ timestampNs := 0, direction := Direction.serverToClient, opcode := 18,
           payload := [0, 18] }] ∧
    ComparePackets
        [{ timestampNs := 0, direction := Direction.serverToClient, opcode := 18,
           payload := [0, 18] }]
        ([] ++ { timestampNs := 0, direction := Direction.clientToServer, opcode := 19,
                 payload := [0, 19] } :: []) =
      ComparePackets
        [{ timestampNs := 0, direction := Direction.serverToClient, opcode := 18,
           payload := [0, 18] }]
        ([] ++ []) :=
  ⟨c7_stimulus_filtered.2.1 []
      [{ timestampNs := 0, direction := Direction.serverToClient, opcode := 18,
         payload := [0, 18] }]
      [{ timestampNs := 0, direction := Direction.serverToClient, opcode := 18,
         payload := [0, 18] }]
      { timestampNs := 0, direction := Direction.clientToServer, opcode := 19,
        payload := [0, 19] }
      rfl,
   c7_stimulus_filtered.2.2
      [{ timestampNs := 0, direction := Direction.serverToClient, opcode := 18,
         payload := [0, 18] }]
      [] []
      { timestampNs := 0, direction := Direction.clientToServer, opcode := 19,
        payload := [0, 19] }
      rfl⟩

/-- C8. Equal opcodes and equal payload lengths at a filtered index
yield no diff there, whatever the payload bytes hold — payload contents
are never compared. -/
theorem c8_equal_no_diff :
    ∀ (expected actual : List PacketRecord) (i : Nat) (exp act : PacketRecord),
      (FilterByDirection expected Direction.serverToClient).get? i = some exp →
      (FilterByDirection actual Direction.serverToClient).get? i = some act →
      exp.opcode = act.opcode →
      exp.payload.length = act.payload.length →
      (ComparePackets expected actual).filter (fun d => d.index == i) = [] := by
  intro expected actual i exp act hE hA hop hlen
  rw [ComparePackets_filter]
  rw [positionalDiffs_filter _ 0 _ i exp (Nat.zero_le i) (by simpa using hE)]
  rw [extrasFrom_filter_below _ _ i (get?_some_lt _ i exp hE)]
  rw [diffAt_none i exp act _ hA hop hlen]
  rfl

/-- Witness for C8: same opcode, same three-byte length, but different
third payload byte — no diff at index 0. -/
theorem c8_witness :
    (ComparePackets
        [{ timestampNs := 0, direction := Direction.serverToClient, opcode := 18,
           payload := [0, 18, 1] }]
        [{ timestampNs := 0, direction := Direction.serverToClient, opcode := 18,
           payload := [0, 18, 2] }]).filter (fun d => d.index == 0) = [] :=
  c8_equal_no_diff
      [{ timestampNs := 0, direction := Direction.serverToClient, opcode := 18,
         payload := [0, 18, 1] }]
      [{ timestampNs := 0, direction := Direction.serverToClient, opcode := 18,
         payload := [0, 18, 2] }]
      0
      { timestampNs := 0, direction := Direction.serverToClient, opcode := 18,
        payload := [0, 18, 1] }
      { timestampNs := 0, direction := Direction.serverToClient, opcode := 18,
        payload := [0, 18, 2] }
      (by decide) (by decide) (by decide) (by decide)

/-- C9. Stats over an empty capture: a nil error, zero packet count,
zero per-direction packet and byte totals, and no duration computed. -/
theorem c9_stats_empty :
    runStats [] =
      Except.ok { packets := 0, totalC2S := 0, bytesC2S := 0,
                  totalS2C := 0, bytesS2C := 0, durationNs := none } := rfl

end Erupe
